import Mathlib

/-!
# Verification of the rv-emu RV32I emulator core

Shallow embedding of the emulator's instruction decoder, memory subsystem and
CPU core, translated from `src/machine/cpu/constants.rs`, `src/machine/cpu/mod.rs`
and `src/machine/memory/mod.rs`.

Machine integers are modelled as `Nat` with explicit reductions modulo `2 ^ 32`
where the Rust code relies on fixed-width behaviour.  Rust `Result` values are
modelled by an outcome type with an explicit `panic` alternative so that
`unimplemented!()` / `todo!()` / out-of-bounds `Vec` indexing (all of which
abort the process) are distinguishable from returned error values.
-/

namespace RvEmu

/-- Outcome of a fallible Rust operation: a returned `Ok` value, a returned
`Err` value, or a process abort (`panic!`-family macros or an indexing panic). -/
inductive Outcome (ε α : Type) where
  | ok : α → Outcome ε α
  | err : ε → Outcome ε α
  | panicked : Outcome ε α
deriving DecidableEq, Repr

/-! ## Memory subsystem (`src/machine/memory`) -/

/-- `MEMORY_SIZE` from `src/machine/memory/constants.rs`: 4 KiB. -/
def MEMORY_SIZE : Nat := 4 * (1 <<< 10)

/-- `RAM_BASE` from `src/machine/memory/constants.rs`. -/
def RAM_BASE : Nat := 0x80

/-- `MemoryError` from `src/machine/memory/mod.rs`. -/
inductive MemoryError where
  | UnsupportedAddressingSize : MemoryError
deriving DecidableEq, Repr

/-- `Memory` from `src/machine/memory/mod.rs`: the backing byte array.
Bytes are `Nat`s; every byte written by the emulator is masked to `< 256`. -/
structure Memory where
  contents : List Nat
deriving DecidableEq, Repr

/-- `Memory::size`. -/
def Memory.size (m : Memory) : Nat := m.contents.length

/-- `MemoryBus::load8`: single-byte read; an out-of-range index is a Rust
indexing panic, modelled by `Outcome.panicked`. -/
def MemoryBus.load8 (m : Memory) (address : Nat) : Outcome MemoryError Nat :=
  let index := address - RAM_BASE
  match m.contents[index]? with
  | some b => .ok b
  | none => .panicked

/-- `MemoryBus::load32`: little-endian assembly of four bytes starting at
`address - RAM_BASE`; any out-of-range index is an indexing panic. -/
def MemoryBus.load32 (m : Memory) (address : Nat) : Outcome MemoryError Nat :=
  let index := address - RAM_BASE
  match m.contents[index]?, m.contents[index + 1]?, m.contents[index + 2]?,
      m.contents[index + 3]? with
  | some b0, some b1, some b2, some b3 =>
      .ok (b0 ||| (b1 <<< 8) ||| (b2 <<< 16) ||| (b3 <<< 24))
  | _, _, _, _ => .panicked

/-- `MemoryBus::load`: addresses below `RAM_BASE` hit the `todo!()` branch
(a panic); widths 16 and 64 are `todo!()`; other unknown widths are the
`UnsupportedAddressingSize` error. -/
def MemoryBus.load (m : Memory) (address sz : Nat) : Outcome MemoryError Nat :=
  if RAM_BASE ≤ address then
    match sz with
    | 8 => MemoryBus.load8 m address
    | 16 => .panicked
    | 32 => MemoryBus.load32 m address
    | 64 => .panicked
    | _ => .err .UnsupportedAddressingSize
  else .panicked

/-- `MemoryBus::store32`: writes the four little-endian bytes of `value` at
`address - RAM_BASE`.  The Rust code indexes the `Vec` unguarded, so a write
whose byte range leaves the array is an indexing panic. -/
def MemoryBus.store32 (m : Memory) (address value : Nat) :
    Outcome MemoryError Memory :=
  let index := address - RAM_BASE
  if index + 3 < m.contents.length then
    .ok ⟨((((m.contents.set index (value &&& 0xff)).set (index + 1)
        ((value >>> 8) &&& 0xff)).set (index + 2)
        ((value >>> 16) &&& 0xff)).set (index + 3)
        ((value >>> 24) &&& 0xff))⟩
  else .panicked

/-- `MemoryBus::store`: widths 8, 16 and 64 are `todo!()` (panic); addresses
below `RAM_BASE` are `todo!()`; unknown widths are the
`UnsupportedAddressingSize` error. -/
def MemoryBus.store (m : Memory) (address sz value : Nat) :
    Outcome MemoryError Memory :=
  if RAM_BASE ≤ address then
    match sz with
    | 8 => .panicked
    | 16 => .panicked
    | 32 => MemoryBus.store32 m address value
    | 64 => .panicked
    | _ => .err .UnsupportedAddressingSize
  else .panicked

/-! ## Instruction decoder (`src/machine/cpu/constants.rs`) -/

/-- `DecodeError` from `src/machine/cpu/mod.rs`. -/
inductive DecodeError where
  | OpcodeZero : DecodeError
deriving DecidableEq, Repr

/-- `IType` instruction record. -/
structure IType where
  opcode : Nat
  rd : Nat
  rs1 : Nat
  imm : Nat
  funct3 : Nat
deriving DecidableEq, Repr

/-- `RType` instruction record. -/
structure RType where
  opcode : Nat
  rd : Nat
  rs1 : Nat
  rs2 : Nat
  funct3 : Nat
  funct7 : Nat
deriving DecidableEq, Repr

/-- `SType` instruction record. -/
structure SType where
  opcode : Nat
  rs1 : Nat
  rs2 : Nat
  imm : Nat
  funct3 : Nat
deriving DecidableEq, Repr

/-- `Instruction` enum from `src/machine/cpu/constants.rs`. -/
inductive Instruction where
  | I : IType → Instruction
  | R : RType → Instruction
  | S : SType → Instruction
  | B : Instruction
  | U : Instruction
  | J : Instruction
deriving DecidableEq, Repr

/-- Rust `x as i32` for an unsigned 32-bit quantity: two's-complement
reinterpretation. -/
def asI32 (x : Nat) : Int :=
  if x < 2 ^ 31 then (x : Int) else (x : Int) - 2 ^ 32

/-- Rust `x as u32` for a signed value: reduction modulo `2 ^ 32`. -/
def asU32 (x : Int) : Nat := (x % (2 ^ 32 : Int)).toNat

/-- `decode_source_registers`: `(rs1, rs2)` from bits [19:15] and [24:20]. -/
def decode_source_registers (raw_instruction : Nat) : Nat × Nat :=
  ((raw_instruction >>> 15) &&& 0x1f, (raw_instruction >>> 20) &&& 0x1f)

/-- `decode_destination_register`: `rd` from bits [11:7]. -/
def decode_destination_register (raw_instruction : Nat) : Nat :=
  (raw_instruction >>> 7) &&& 0x1f

/-- `decode_functs`: `(funct3, funct7)`.  Note the Rust code masks the second
component with `0x3F` (six bits), exactly as written in the source. -/
def decode_functs (raw_instruction : Nat) : Nat × Nat :=
  ((raw_instruction >>> 12) &&& 0x7, (raw_instruction >>> 25) &&& 0x3F)

/-- I-type immediate, `((value & 0xfff00000) as i32 >> 20) as u32`.  The
arithmetic right shift of an `i32` is floor division by `2 ^ 20`. -/
def itype_imm (value : Nat) : Nat :=
  asU32 (Int.fdiv (asI32 (value &&& 0xfff00000)) (2 ^ 20))

/-- S-type immediate,
`(((value & 0xfe000000) as i32 as i64 >> 20) as u32) | ((value >> 7) & 0x1f)`.
The `i32 → i64` cast is value-preserving and the arithmetic shift is floor
division by `2 ^ 20`. -/
def stype_imm (value : Nat) : Nat :=
  asU32 (Int.fdiv (asI32 (value &&& 0xfe000000)) (2 ^ 20)) |||
    ((value >>> 7) &&& 0x1f)

/-- `Instruction::try_from` on the raw 32-bit word: opcodes `0x03`/`0x13`
decode as I-type, `0x23` as S-type, `0x33` as R-type, `0x0` is the
`OpcodeZero` error, and anything else is `unimplemented!()` (a panic). -/
def Instruction.tryFrom (value : Nat) : Outcome DecodeError Instruction :=
  let opcode := value &&& 0x7f
  if opcode = 0x03 ∨ opcode = 0x13 then
    .ok (.I
      { opcode := opcode
        rd := decode_destination_register value
        rs1 := (decode_source_registers value).1
        imm := itype_imm value
        funct3 := (decode_functs value).1 })
  else if opcode = 0x23 then
    .ok (.S
      { opcode := opcode
        rs1 := (decode_source_registers value).1
        rs2 := (decode_source_registers value).2
        imm := stype_imm value
        funct3 := (decode_functs value).1 })
  else if opcode = 0x33 then
    .ok (.R
      { opcode := opcode
        rd := decode_destination_register value
        rs1 := (decode_source_registers value).1
        rs2 := (decode_source_registers value).2
        funct3 := (decode_functs value).1
        funct7 := (decode_functs value).2 })
  else if opcode = 0x0 then
    .err .OpcodeZero
  else .panicked

/-! ## CPU core (`src/machine/cpu/mod.rs`) -/

/-- `FetchError`. -/
inductive FetchError where
  | Memory : MemoryError → FetchError
deriving DecidableEq, Repr

/-- `ExecuteError`. -/
inductive ExecuteError where
  | Memory : MemoryError → ExecuteError
deriving DecidableEq, Repr

/-- `CpuError`. -/
inductive CpuError where
  | Fetch : FetchError → CpuError
  | Decode : DecodeError → CpuError
  | Execute : ExecuteError → CpuError
deriving DecidableEq, Repr

/-- `Cpu`: the register file `x0`–`x31` and the program counter. -/
structure Cpu where
  registers : List Nat
  pc : Nat
deriving DecidableEq, Repr

/-- Register read `self.registers[i]`. -/
def getReg (c : Cpu) (i : Nat) : Nat := c.registers.getD i 0

/-- Register write `self.registers[i] = v`. -/
def setReg (c : Cpu) (i v : Nat) : Cpu :=
  { c with registers := c.registers.set i v }

/-- Sign extension performed by `val as i8 as i32 as u32` (the `lb` path):
truncate to a byte, then extend the sign bit through bit 31. -/
def sext8 (v : Nat) : Nat :=
  let t := v % 0x100
  if t < 0x80 then t else t + 0xffffff00

/-- Sign extension performed by `val as i16 as i32 as u32` (the `lh` path). -/
def sext16 (v : Nat) : Nat :=
  let t := v % 0x10000
  if t < 0x8000 then t else t + 0xffff0000

/-- `Cpu::fetch`: a 32-bit load at the current program counter; the loaded
`usize` is cast with `as u32`. -/
def Cpu.fetch (c : Cpu) (m : Memory) : Outcome FetchError Nat :=
  match MemoryBus.load m c.pc 32 with
  | .ok v => .ok (v % 2 ^ 32)
  | .err e => .err (.Memory e)
  | .panicked => .panicked

/-- `Cpu::execute`, translated arm for arm from the nested `match` in
`src/machine/cpu/mod.rs`.  `unimplemented!()` and `todo!()` arms are
`Outcome.panicked`; the `_ => {}` arms of the load and store dispatch return
successfully with the state untouched. -/
def Cpu.execute (c : Cpu) (instruction : Instruction) (m : Memory) :
    Outcome ExecuteError (Cpu × Memory) :=
  match instruction with
  | .I i =>
    if i.opcode = 0x03 then
      let address := (getReg c i.rs1 + i.imm) % 2 ^ 32
      if i.funct3 = 0x0 then
        match MemoryBus.load m address 8 with
        | .ok val => .ok (setReg c i.rd (sext8 val), m)
        | .err e => .err (.Memory e)
        | .panicked => .panicked
      else if i.funct3 = 0x1 then
        match MemoryBus.load m address 16 with
        | .ok val => .ok (setReg c i.rd (sext16 val), m)
        | .err e => .err (.Memory e)
        | .panicked => .panicked
      else if i.funct3 = 0x2 then
        match MemoryBus.load m address 32 with
        | .ok val => .ok (setReg c i.rd (val % 2 ^ 32), m)
        | .err e => .err (.Memory e)
        | .panicked => .panicked
      else if i.funct3 = 0x4 then
        match MemoryBus.load m address 8 with
        | .ok val => .ok (setReg c i.rd (val % 2 ^ 32), m)
        | .err e => .err (.Memory e)
        | .panicked => .panicked
      else if i.funct3 = 0x5 then
        match MemoryBus.load m address 16 with
        | .ok val => .ok (setReg c i.rd (val % 2 ^ 32), m)
        | .err e => .err (.Memory e)
        | .panicked => .panicked
      else .ok (c, m)
    else if i.opcode = 0x13 then
      if i.funct3 = 0x0 then
        .ok (setReg c i.rd ((getReg c i.rs1 + i.imm) % 2 ^ 32), m)
      else .panicked
    else .panicked
  | .R r =>
    if r.opcode = 0x33 then
      if r.funct3 = 0x0 ∧ r.funct7 = 0x0 then
        .ok (setReg c r.rd ((getReg c r.rs1 + getReg c r.rs2) % 2 ^ 32), m)
      else if r.funct3 = 0x0 ∧ r.funct7 = 0x20 then
        .ok (setReg c r.rd
          ((getReg c r.rs1 + (2 ^ 32 - getReg c r.rs2 % 2 ^ 32)) % 2 ^ 32), m)
      else .panicked
    else .panicked
  | .S s =>
    let address := (getReg c s.rs1 + s.imm) % 2 ^ 32
    if s.opcode = 0x23 then
      if s.funct3 = 0x0 then
        match MemoryBus.store m address 8 (getReg c s.rs2) with
        | .ok m2 => .ok (c, m2)
        | .err e => .err (.Memory e)
        | .panicked => .panicked
      else if s.funct3 = 0x1 then
        match MemoryBus.store m address 16 (getReg c s.rs2) with
        | .ok m2 => .ok (c, m2)
        | .err e => .err (.Memory e)
        | .panicked => .panicked
      else if s.funct3 = 0x2 then
        match MemoryBus.store m address 32 (getReg c s.rs2) with
        | .ok m2 => .ok (c, m2)
        | .err e => .err (.Memory e)
        | .panicked => .panicked
      else .ok (c, m)
    else .panicked
  | _ => .panicked

/-- `Cpu::advance`: zero `x0`, fetch at the current PC, bump the PC by four
(32-bit wrapping), decode, execute. -/
def Cpu.advance (c : Cpu) (m : Memory) : Outcome CpuError (Cpu × Memory) :=
  let c0 := setReg c 0 0
  match Cpu.fetch c0 m with
  | .err e => .err (.Fetch e)
  | .panicked => .panicked
  | .ok raw_instruction =>
    let c1 : Cpu := { registers := c0.registers, pc := (c0.pc + 4) % 2 ^ 32 }
    match Instruction.tryFrom raw_instruction with
    | .err e => .err (.Decode e)
    | .panicked => .panicked
    | .ok instruction =>
      match Cpu.execute c1 instruction m with
      | .ok cm => .ok cm
      | .err e => .err (.Execute e)
      | .panicked => .panicked

/-- Outcome of the `Cpu::reset` driver loop; `fuel` marks exhaustion of the
step budget of the fuelled model, never an outcome of the code itself. -/
inductive ResetOutcome where
  | ok : Cpu → Memory → ResetOutcome
  | err : CpuError → ResetOutcome
  | panicked : ResetOutcome
  | fuel : ResetOutcome
deriving DecidableEq, Repr

/-- `Cpu::reset`, fuelled: while `pc < memory.size() as u32`, run `advance`,
propagating its first error (or panic); once the PC leaves the memory size,
return success. -/
def Cpu.resetFuel (fuel : Nat) (c : Cpu) (m : Memory) : ResetOutcome :=
  match fuel with
  | 0 => .fuel
  | n + 1 =>
    if c.pc < m.size % 2 ^ 32 then
      match Cpu.advance c m with
      | .ok (c2, m2) => Cpu.resetFuel n c2 m2
      | .err e => .err e
      | .panicked => .panicked
    else .ok c m

/-! ## Spec-side definitions

These restate the spec's wording for immediates, to be compared with the
decoder translated from the source. -/

/-- Sign-extension of a `width`-bit field to 32 bits, as the spec words it:
replicate the sign bit of the narrow value into the higher bits. -/
def signExtendTo32 (width f : Nat) : Nat :=
  if f < 2 ^ (width - 1) then f else f + (2 ^ 32 - 2 ^ width)

/-- The spec's I-type immediate: the 12-bit field in bits [31:20],
sign-extended to 32 bits. -/
def specItypeImm (raw : Nat) : Nat :=
  signExtendTo32 12 ((raw >>> 20) &&& 0xfff)

/-- The spec's S-type immediate: bits [31:25] sign-extended and shifted into
positions [11:5], OR'd with bits [11:7] placed in positions [4:0]. -/
def specStypeImm (raw : Nat) : Nat :=
  ((signExtendTo32 7 ((raw >>> 25) &&& 0x7f)) <<< 5) % 2 ^ 32 |||
    ((raw >>> 7) &&& 0x1f)

/-! ## Bit-level helper lemmas -/

theorem and_ones_shift (x a b : Nat) :
    x &&& ((2 ^ a - 1) <<< b) = ((x >>> b) % 2 ^ a) <<< b := by
  apply Nat.eq_of_testBit_eq
  intro i
  simp only [Nat.testBit_land, Nat.testBit_shiftLeft, Nat.testBit_two_pow_sub_one,
    Nat.testBit_mod_two_pow, Nat.testBit_shiftRight]
  by_cases hb : b ≤ i
  · have hi : b + (i - b) = i := by omega
    cases hx : x.testBit i <;> simp [hb, hi, hx]
  · simp [hb]

theorem mask_fff00000 (x : Nat) : x &&& 0xfff00000 = ((x >>> 20) % 2 ^ 12) <<< 20 := by
  have h : (0xfff00000 : Nat) = (2 ^ 12 - 1) <<< 20 := by
    rw [Nat.shiftLeft_eq]
    norm_num
  rw [h, and_ones_shift]

theorem mask_fe000000 (x : Nat) : x &&& 0xfe000000 = ((x >>> 25) % 2 ^ 7) <<< 25 := by
  have h : (0xfe000000 : Nat) = (2 ^ 7 - 1) <<< 25 := by
    rw [Nat.shiftLeft_eq]
    norm_num
  rw [h, and_ones_shift]

theorem int_two_pow_32 : (2 : Int) ^ 32 = 4294967296 := by norm_num

theorem int_two_pow_12 : (2 : Int) ^ 12 = 4096 := by norm_num

theorem int_two_pow_5 : (2 : Int) ^ 5 = 32 := by norm_num

theorem itype_imm_eq (value : Nat) : itype_imm value = specItypeImm value := by
  have hf : (value >>> 20) &&& 0xfff = (value >>> 20) % 2 ^ 12 := by
    have h : (0xfff : Nat) = 2 ^ 12 - 1 := by norm_num
    rw [h, Nat.and_pow_two_sub_one_eq_mod]
  have hflt : (value >>> 20) % 2 ^ 12 < 2 ^ 12 := Nat.mod_lt _ (by norm_num)
  set f := (value >>> 20) % 2 ^ 12 with hfdef
  unfold itype_imm specItypeImm signExtendTo32 asI32 asU32
  rw [mask_fff00000, Nat.shiftLeft_eq, hf]
  by_cases hc : f < 2 ^ 11
  · have hlt : f * 2 ^ 20 < 2 ^ 31 := by
      calc f * 2 ^ 20 < 2 ^ 11 * 2 ^ 20 := by
            exact (Nat.mul_lt_mul_right (by norm_num)).mpr hc
        _ ≤ 2 ^ 31 := by norm_num
    rw [if_pos hlt, if_pos (by omega : f < 2 ^ (12 - 1))]
    have hdiv : Int.fdiv ((f * 2 ^ 20 : Nat) : Int) (2 ^ 20) = (f : Int) := by
      push_cast
      exact Int.mul_fdiv_cancel _ (by norm_num)
    rw [hdiv]
    simp only [int_two_pow_32, int_two_pow_12, int_two_pow_5]
    omega
  · have hge : ¬ (f * 2 ^ 20 < 2 ^ 31) := by
      have : 2 ^ 11 * 2 ^ 20 ≤ f * 2 ^ 20 :=
        Nat.mul_le_mul_right _ (by omega)
      omega
    rw [if_neg hge, if_neg (by omega : ¬ f < 2 ^ (12 - 1))]
    have hdiv : Int.fdiv (((f * 2 ^ 20 : Nat) : Int) - 2 ^ 32) (2 ^ 20)
        = (f : Int) - 2 ^ 12 := by
      have h1 : ((f * 2 ^ 20 : Nat) : Int) - 2 ^ 32 = ((f : Int) - 2 ^ 12) * 2 ^ 20 := by
        push_cast
        ring
      rw [h1]
      exact Int.mul_fdiv_cancel _ (by norm_num)
    rw [hdiv]
    simp only [int_two_pow_32, int_two_pow_12, int_two_pow_5]
    omega

theorem stype_imm_eq (value : Nat) : stype_imm value = specStypeImm value := by
  have hh : (value >>> 25) &&& 0x7f = (value >>> 25) % 2 ^ 7 := by
    have h : (0x7f : Nat) = 2 ^ 7 - 1 := by norm_num
    rw [h, Nat.and_pow_two_sub_one_eq_mod]
  have hhlt : (value >>> 25) % 2 ^ 7 < 2 ^ 7 := Nat.mod_lt _ (by norm_num)
  set h := (value >>> 25) % 2 ^ 7 with hhdef
  unfold stype_imm specStypeImm signExtendTo32 asI32 asU32
  rw [mask_fe000000, Nat.shiftLeft_eq, hh]
  congr 1
  rw [Nat.shiftLeft_eq]
  by_cases hc : h < 2 ^ 6
  · have hlt : h * 2 ^ 25 < 2 ^ 31 := by
      calc h * 2 ^ 25 < 2 ^ 6 * 2 ^ 25 := by
            exact (Nat.mul_lt_mul_right (by norm_num)).mpr hc
        _ ≤ 2 ^ 31 := by norm_num
    rw [if_pos hlt, if_pos (by omega : h < 2 ^ (7 - 1))]
    have hdiv : Int.fdiv ((h * 2 ^ 25 : Nat) : Int) (2 ^ 20) = (h : Int) * 2 ^ 5 := by
      have h1 : ((h * 2 ^ 25 : Nat) : Int) = ((h : Int) * 2 ^ 5) * 2 ^ 20 := by
        push_cast
        ring
      rw [h1]
      exact Int.mul_fdiv_cancel _ (by norm_num)
    rw [hdiv]
    simp only [int_two_pow_32, int_two_pow_12, int_two_pow_5]
    omega
  · have hge : ¬ (h * 2 ^ 25 < 2 ^ 31) := by
      have : 2 ^ 6 * 2 ^ 25 ≤ h * 2 ^ 25 :=
        Nat.mul_le_mul_right _ (by omega)
      omega
    rw [if_neg hge, if_neg (by omega : ¬ h < 2 ^ (7 - 1))]
    have hdiv : Int.fdiv (((h * 2 ^ 25 : Nat) : Int) - 2 ^ 32) (2 ^ 20)
        = (h : Int) * 2 ^ 5 - 2 ^ 12 := by
      have h1 : ((h * 2 ^ 25 : Nat) : Int) - 2 ^ 32
          = ((h : Int) * 2 ^ 5 - 2 ^ 12) * 2 ^ 20 := by
        push_cast
        ring
      rw [h1]
      exact Int.mul_fdiv_cancel _ (by norm_num)
    rw [hdiv]
    simp only [int_two_pow_32, int_two_pow_12, int_two_pow_5]
    omega

/-- Reassembling the four little-endian bytes of a 32-bit value by shifted OR
recovers the value. -/
theorem reassemble (v : Nat) (hv : v < 2 ^ 32) :
    (v &&& 0xff) ||| (((v >>> 8) &&& 0xff) <<< 8) ||| (((v >>> 16) &&& 0xff) <<< 16) |||
      (((v >>> 24) &&& 0xff) <<< 24) = v := by
  have hff : (0xff : Nat) = 2 ^ 8 - 1 := by norm_num
  apply Nat.eq_of_testBit_eq
  intro j
  simp only [hff, Nat.and_pow_two_sub_one_eq_mod, Nat.testBit_lor, Nat.testBit_shiftLeft,
    Nat.testBit_mod_two_pow, Nat.testBit_shiftRight]
  by_cases h1 : j < 8
  · have e1 : ¬ (8 ≤ j) := by omega
    have e2 : ¬ (16 ≤ j) := by omega
    have e3 : ¬ (24 ≤ j) := by omega
    simp [h1, e1, e2, e3]
  · by_cases h2 : j < 16
    · have e1 : 8 ≤ j := by omega
      have f1 : j - 8 < 8 := by omega
      have e2 : ¬ (16 ≤ j) := by omega
      have e3 : ¬ (24 ≤ j) := by omega
      have hj : 8 + (j - 8) = j := by omega
      simp [h1, e1, f1, e2, e3, hj]
    · by_cases h3 : j < 24
      · have e1 : 8 ≤ j := by omega
        have f1 : ¬ (j - 8 < 8) := by omega
        have e2 : 16 ≤ j := by omega
        have f2 : j - 16 < 8 := by omega
        have e3 : ¬ (24 ≤ j) := by omega
        have hj : 16 + (j - 16) = j := by omega
        simp [h1, e1, f1, e2, f2, e3, hj]
      · by_cases h4 : j < 32
        · have e1 : 8 ≤ j := by omega
          have f1 : ¬ (j - 8 < 8) := by omega
          have e2 : 16 ≤ j := by omega
          have f2 : ¬ (j - 16 < 8) := by omega
          have e3 : 24 ≤ j := by omega
          have f3 : j - 24 < 8 := by omega
          have hj : 24 + (j - 24) = j := by omega
          simp [h1, e1, f1, e2, f2, e3, f3, hj]
        · have f1 : ¬ (j - 8 < 8) := by omega
          have f2 : ¬ (j - 16 < 8) := by omega
          have f3 : ¬ (j - 24 < 8) := by omega
          have hvj : v.testBit j = false :=
            Nat.testBit_lt_two_pow
              (lt_of_lt_of_le hv (Nat.pow_le_pow_right (by norm_num) (by omega)))
          simp [h1, f1, f2, f3, hvj]

/-- The contents produced by a successful 32-bit store. -/
theorem store32_ok (m : Memory) (a v : Nat)
    (hb : a - RAM_BASE + 3 < m.contents.length) :
    MemoryBus.store32 m a v =
      .ok ⟨(((m.contents.set (a - RAM_BASE) (v &&& 0xff)).set (a - RAM_BASE + 1)
        ((v >>> 8) &&& 0xff)).set (a - RAM_BASE + 2)
        ((v >>> 16) &&& 0xff)).set (a - RAM_BASE + 3)
        ((v >>> 24) &&& 0xff)⟩ := by
  simp only [MemoryBus.store32]
  rw [if_pos hb]

/-- `C4`: for every in-capacity address at or above `RAM_BASE` and every
32-bit value, a 32-bit store followed by a 32-bit load returns the value
exactly, and the four underlying bytes are the little-endian decomposition of
the value, least-significant byte first. -/
theorem store_load_roundtrip (m : Memory) (a v : Nat)
    (ha : RAM_BASE ≤ a) (hb : a - RAM_BASE + 3 < m.size) (hv : v < 2 ^ 32) :
    ∃ m2, MemoryBus.store m a 32 v = .ok m2 ∧
      MemoryBus.load m2 a 32 = .ok v ∧
      m2.contents[a - RAM_BASE]? = some (v % 2 ^ 8) ∧
      m2.contents[a - RAM_BASE + 1]? = some ((v >>> 8) % 2 ^ 8) ∧
      m2.contents[a - RAM_BASE + 2]? = some ((v >>> 16) % 2 ^ 8) ∧
      m2.contents[a - RAM_BASE + 3]? = some ((v >>> 24) % 2 ^ 8) := by
  have hlen : a - RAM_BASE + 3 < m.contents.length := hb
  refine ⟨⟨(((m.contents.set (a - RAM_BASE) (v &&& 0xff)).set (a - RAM_BASE + 1)
      ((v >>> 8) &&& 0xff)).set (a - RAM_BASE + 2)
      ((v >>> 16) &&& 0xff)).set (a - RAM_BASE + 3)
      ((v >>> 24) &&& 0xff)⟩, ?_, ?_, ?_, ?_, ?_, ?_⟩
  case _ =>
    simp only [MemoryBus.store, if_pos ha]
    exact store32_ok m a v hlen
  all_goals
    have g0 : ((((m.contents.set (a - RAM_BASE) (v &&& 0xff)).set (a - RAM_BASE + 1)
        ((v >>> 8) &&& 0xff)).set (a - RAM_BASE + 2)
        ((v >>> 16) &&& 0xff)).set (a - RAM_BASE + 3)
        ((v >>> 24) &&& 0xff))[a - RAM_BASE]? = some (v &&& 0xff) := by
      rw [List.getElem?_set_ne (by omega), List.getElem?_set_ne (by omega),
        List.getElem?_set_ne (by omega)]
      exact List.getElem?_set_self (by omega)
  all_goals
    have g1 : ((((m.contents.set (a - RAM_BASE) (v &&& 0xff)).set (a - RAM_BASE + 1)
        ((v >>> 8) &&& 0xff)).set (a - RAM_BASE + 2)
        ((v >>> 16) &&& 0xff)).set (a - RAM_BASE + 3)
        ((v >>> 24) &&& 0xff))[a - RAM_BASE + 1]? = some ((v >>> 8) &&& 0xff) := by
      rw [List.getElem?_set_ne (by omega), List.getElem?_set_ne (by omega)]
      exact List.getElem?_set_self (by simp [List.length_set]; omega)
  all_goals
    have g2 : ((((m.contents.set (a - RAM_BASE) (v &&& 0xff)).set (a - RAM_BASE + 1)
        ((v >>> 8) &&& 0xff)).set (a - RAM_BASE + 2)
        ((v >>> 16) &&& 0xff)).set (a - RAM_BASE + 3)
        ((v >>> 24) &&& 0xff))[a - RAM_BASE + 2]? = some ((v >>> 16) &&& 0xff) := by
      rw [List.getElem?_set_ne (by omega)]
      exact List.getElem?_set_self (by simp [List.length_set]; omega)
  all_goals
    have g3 : ((((m.contents.set (a - RAM_BASE) (v &&& 0xff)).set (a - RAM_BASE + 1)
        ((v >>> 8) &&& 0xff)).set (a - RAM_BASE + 2)
        ((v >>> 16) &&& 0xff)).set (a - RAM_BASE + 3)
        ((v >>> 24) &&& 0xff))[a - RAM_BASE + 3]? = some ((v >>> 24) &&& 0xff) := by
      exact List.getElem?_set_self (by simp [List.length_set]; omega)
  case _ =>
    simp only [MemoryBus.load, if_pos ha, MemoryBus.load32]
    rw [g0, g1, g2, g3]
    exact congrArg Outcome.ok (reassemble v hv)
  case _ =>
    rw [g0]
    congr 1
    have hff : (0xff : Nat) = 2 ^ 8 - 1 := by norm_num
    rw [hff, Nat.and_pow_two_sub_one_eq_mod]
  case _ =>
    rw [g1]
    congr 1
    have hff : (0xff : Nat) = 2 ^ 8 - 1 := by norm_num
    rw [hff, Nat.and_pow_two_sub_one_eq_mod]
  case _ =>
    rw [g2]
    congr 1
    have hff : (0xff : Nat) = 2 ^ 8 - 1 := by norm_num
    rw [hff, Nat.and_pow_two_sub_one_eq_mod]
  case _ =>
    rw [g3]
    congr 1
    have hff : (0xff : Nat) = 2 ^ 8 - 1 := by norm_num
    rw [hff, Nat.and_pow_two_sub_one_eq_mod]

/-- Witness for C4: storing `0x12345678` at `RAM_BASE` and loading it back,
with the spec's example byte order `[0x78, 0x56, 0x34, 0x12]`. -/
theorem store_load_roundtrip_witness :
    ∃ m2, MemoryBus.store ⟨[7, 7, 7, 7]⟩ 0x80 32 0x12345678 = .ok m2 ∧
      MemoryBus.load m2 0x80 32 = .ok 0x12345678 ∧
      m2.contents[0x80 - RAM_BASE]? = some (0x12345678 % 2 ^ 8) ∧
      m2.contents[0x80 - RAM_BASE + 1]? = some ((0x12345678 >>> 8) % 2 ^ 8) ∧
      m2.contents[0x80 - RAM_BASE + 2]? = some ((0x12345678 >>> 16) % 2 ^ 8) ∧
      m2.contents[0x80 - RAM_BASE + 3]? = some ((0x12345678 >>> 24) % 2 ^ 8) :=
  store_load_roundtrip ⟨[7, 7, 7, 7]⟩ 0x80 0x12345678 (by decide) (by decide) (by decide)

/-! ## Execute- and advance-level helper lemmas -/

theorem setReg_pc (c : Cpu) (j v : Nat) : (setReg c j v).pc = c.pc := rfl

/-- A successful execution never changes the program counter. -/
theorem execute_ok_pc (c : Cpu) (instr : Instruction) (m : Memory) (c2 : Cpu) (m2 : Memory)
    (h : Cpu.execute c instr m = .ok (c2, m2)) : c2.pc = c.pc := by
  cases instr <;> simp only [Cpu.execute] at h <;> repeat' split at h
  all_goals simp_all [setReg]
  all_goals obtain ⟨h1, h2⟩ := h
  all_goals subst h1
  all_goals rfl

/-- A successful execution of a load-format instruction (opcode `0x03`)
returns the memory unchanged and preserves the program counter. -/
theorem execute_load_pure (c : Cpu) (i : IType) (m : Memory) (c2 : Cpu) (m2 : Memory)
    (hop : i.opcode = 0x03) (h : Cpu.execute c (.I i) m = .ok (c2, m2)) :
    m2 = m ∧ c2.pc = c.pc := by
  simp only [Cpu.execute, hop] at h
  norm_num at h
  repeat' split at h
  all_goals simp_all [setReg]
  all_goals obtain ⟨h1, h2⟩ := h
  all_goals subst h1
  all_goals rfl

/-- A successful 32-bit load implies the address is mapped and its four-byte
range is inside the backing array. -/
theorem load32_ok_inv (m : Memory) (a v : Nat)
    (h : MemoryBus.load m a 32 = .ok v) :
    RAM_BASE ≤ a ∧ a - RAM_BASE + 3 < m.size := by
  simp only [MemoryBus.load] at h
  by_cases ha : RAM_BASE ≤ a
  · refine ⟨ha, ?_⟩
    rw [if_pos ha] at h
    simp only [MemoryBus.load32] at h
    split at h
    · rename_i b0 b1 b2 b3 hb0 hb1 hb2 hb3
      have := List.getElem?_eq_some_iff.mp hb3
      exact this.1
    · cases h
  · rw [if_neg ha] at h
    cases h

/-- A successful fetch implies the program counter is mapped and in range. -/
theorem fetch_ok_inv (c : Cpu) (m : Memory) (v : Nat)
    (h : Cpu.fetch c m = .ok v) :
    RAM_BASE ≤ c.pc ∧ c.pc - RAM_BASE + 3 < m.size := by
  simp only [Cpu.fetch] at h
  split at h
  · rename_i w hw
    exact load32_ok_inv m c.pc w hw
  · cases h
  · cases h

/-- Inversion for a successful `advance`: the fetch succeeded (so the old PC
was mapped and in range) and the new PC is the old PC plus four, modulo
`2 ^ 32`. -/
theorem advance_ok_inv (c : Cpu) (m : Memory) (c2 : Cpu) (m2 : Memory)
    (h : Cpu.advance c m = .ok (c2, m2)) :
    RAM_BASE ≤ c.pc ∧ c.pc - RAM_BASE + 3 < m.size ∧ c2.pc = (c.pc + 4) % 2 ^ 32 := by
  simp only [Cpu.advance] at h
  split at h
  · cases h
  · cases h
  · rename_i raw hraw
    have hf := fetch_ok_inv (setReg c 0 0) m raw hraw
    rw [setReg_pc] at hf
    refine ⟨hf.1, hf.2, ?_⟩
    split at h
    · cases h
    · cases h
    · rename_i instr hinstr
      split at h
      · rename_i cm hcm
        cases cm with
        | mk c3 m3 =>
          cases h
          have := execute_ok_pc _ instr m _ _ hcm
          rw [this]
          rfl
      · cases h
      · cases h

/-- `advance` from a PC below `RAM_BASE` hits the unmapped-address `todo!()`
in the fetch and panics. -/
theorem advance_panic_low (c : Cpu) (m : Memory) (h : c.pc < RAM_BASE) :
    Cpu.advance c m = .panicked := by
  simp only [Cpu.advance, Cpu.fetch, MemoryBus.load, setReg_pc]
  rw [if_neg (by omega : ¬ RAM_BASE ≤ c.pc)]

theorem setReg_setReg (c : Cpu) (i v w : Nat) :
    setReg (setReg c i v) i w = setReg c i w := by
  simp [setReg, List.set_set]

theorem getD_set_zero (l : List Nat) : (l.set 0 0).getD 0 0 = 0 := by
  cases l <;> simp

/-! ## Claim theorems -/

/-- C1: the claim asserts that for opcode `0x33` the decoded `funct7` equals
bits [31:25] of the raw word, `(raw >> 25) & 0x7f`.  The code masks with
`0x3F` instead, so on `raw = 0x80000033` (bit 31 set) the decoder yields
`funct7 = 0` although bits [31:25] are `0x40`.  This theorem evaluates the
decoder at that failing input. -/
theorem funct7_six_bit_mask :
    Instruction.tryFrom 0x80000033 =
      .ok (.R { opcode := 0x33, rd := 0, rs1 := 0, rs2 := 0, funct3 := 0, funct7 := 0 }) ∧
    (0x80000033 >>> 25) &&& 0x7f = 0x40 := by
  constructor
  · decide
  · decide

/-- C2 counterexample: decoding the word `0x3003` (opcode `0x03`, funct3
`0x3`) succeeds, and executing it returns success with registers, memory and
PC untouched — a silent no-op, not a fatal "unimplemented instruction"
abort.  This refutes the claim as stated. -/
theorem silent_noop_counterexample :
    Instruction.tryFrom 0x3003 =
      .ok (.I { opcode := 0x03, rd := 0, rs1 := 0, imm := 0, funct3 := 0x3 }) ∧
    Cpu.execute ⟨List.replicate 32 0, 0x84⟩
        (.I { opcode := 0x03, rd := 0, rs1 := 0, imm := 0, funct3 := 0x3 }) ⟨[0, 0, 0, 0]⟩ =
      .ok (⟨List.replicate 32 0, 0x84⟩, ⟨[0, 0, 0, 0]⟩) := by
  constructor
  · decide
  · decide

/-- C2 amended: I-type loads (opcode `0x03`) with funct3 in `{0x3, 0x6, 0x7}`
and S-type stores (opcode `0x23`) with funct3 outside `{0x0, 0x1, 0x2}`
execute as silent successful no-ops; unrecognized funct3 for opcode `0x13`
and unrecognized funct3/funct7 pairs for opcode `0x33` are fatal
(`unimplemented!()` panics). -/
theorem unimplemented_dispatch_behavior :
    (∀ c m (i : IType), i.opcode = 0x03 →
      i.funct3 = 0x3 ∨ i.funct3 = 0x6 ∨ i.funct3 = 0x7 →
      Cpu.execute c (.I i) m = .ok (c, m)) ∧
    (∀ c m (s : SType), s.opcode = 0x23 →
      s.funct3 ≠ 0x0 → s.funct3 ≠ 0x1 → s.funct3 ≠ 0x2 →
      Cpu.execute c (.S s) m = .ok (c, m)) ∧
    (∀ c m (i : IType), i.opcode = 0x13 → i.funct3 ≠ 0x0 →
      Cpu.execute c (.I i) m = .panicked) ∧
    (∀ c m (r : RType), r.opcode = 0x33 →
      ¬(r.funct3 = 0x0 ∧ (r.funct7 = 0x0 ∨ r.funct7 = 0x20)) →
      Cpu.execute c (.R r) m = .panicked) := by
  refine ⟨?_, ?_, ?_, ?_⟩
  · intro c m i hop hf
    rcases hf with h | h | h <;> simp [Cpu.execute, hop, h]
  · intro c m s hop h0 h1 h2
    simp [Cpu.execute, hop, h0, h1, h2]
  · intro c m i hop hf
    simp [Cpu.execute, hop, hf]
  · intro c m r hop hr
    have hr1 : ¬(r.funct3 = 0x0 ∧ r.funct7 = 0x0) := by tauto
    have hr2 : ¬(r.funct3 = 0x0 ∧ r.funct7 = 0x20) := by tauto
    simp only [Cpu.execute, hop]
    norm_num
    rw [if_neg hr1, if_neg hr2]

/-- Witness for the amended C2 theorem at concrete inputs: an `lq`-slot load
funct3 (`0x6`) and an undefined store funct3 (`0x5`) are silent no-ops, while
an undefined `0x13` funct3 (`0x1`) and an undefined R-type pair panic. -/
theorem unimplemented_dispatch_witness :
    Cpu.execute ⟨List.replicate 32 0, 0x80⟩
        (.I { opcode := 0x03, rd := 1, rs1 := 0, imm := 0, funct3 := 0x6 }) ⟨[0]⟩ =
      .ok (⟨List.replicate 32 0, 0x80⟩, ⟨[0]⟩) ∧
    Cpu.execute ⟨List.replicate 32 0, 0x80⟩
        (.S { opcode := 0x23, rs1 := 0, rs2 := 0, imm := 0, funct3 := 0x5 }) ⟨[0]⟩ =
      .ok (⟨List.replicate 32 0, 0x80⟩, ⟨[0]⟩) ∧
    Cpu.execute ⟨List.replicate 32 0, 0x80⟩
        (.I { opcode := 0x13, rd := 0, rs1 := 0, imm := 0, funct3 := 0x1 }) ⟨[0]⟩ =
      .panicked ∧
    Cpu.execute ⟨List.replicate 32 0, 0x80⟩
        (.R { opcode := 0x33, rd := 0, rs1 := 0, rs2 := 0, funct3 := 0x1, funct7 := 0x0 }) ⟨[0]⟩ =
      .panicked :=
  ⟨unimplemented_dispatch_behavior.1 _ _ _ rfl (Or.inr (Or.inl rfl)),
   unimplemented_dispatch_behavior.2.1 _ _ _ rfl (by decide) (by decide) (by decide),
   unimplemented_dispatch_behavior.2.2.1 _ _ _ rfl (by decide),
   unimplemented_dispatch_behavior.2.2.2 _ _ _ rfl (by decide)⟩

/-- C3: the claim says out-of-range loads and stores fail with an
out-of-bounds error value rather than panicking.  The code indexes the `Vec`
unguarded: any access whose byte range leaves the backing array is an
indexing panic, and no error value is ever produced for it.  The final
conjunct evaluates this at a concrete failing input. -/
theorem out_of_bounds_panics :
    (∀ m a v, RAM_BASE ≤ a → m.size < a - RAM_BASE + 4 →
      MemoryBus.load m a 32 = .panicked ∧ MemoryBus.store m a 32 v = .panicked) ∧
    (∀ m a, RAM_BASE ≤ a → m.size ≤ a - RAM_BASE →
      MemoryBus.load m a 8 = .panicked) ∧
    (MemoryBus.load ⟨[0, 0, 0, 0]⟩ (0x80 + 2) 32 = .panicked ∧
     MemoryBus.store ⟨[0, 0, 0, 0]⟩ (0x80 + 2) 32 0 = .panicked ∧
     (∀ e v, MemoryBus.load ⟨[0, 0, 0, 0]⟩ (0x80 + 2) 32 ≠ .err e ∧
       MemoryBus.store ⟨[0, 0, 0, 0]⟩ (0x80 + 2) 32 v ≠ .err e)) := by
  refine ⟨?_, ?_, by decide, by decide, ?_⟩
  · intro m a v ha hb
    have hsz : m.size = m.contents.length := rfl
    have hlen : m.contents.length ≤ a - RAM_BASE + 3 := by omega
    constructor
    · have h32 : MemoryBus.load m a 32 = MemoryBus.load32 m a := by
        simp only [MemoryBus.load, if_pos ha]
      rw [h32]
      simp only [MemoryBus.load32]
      have h3 : m.contents[a - RAM_BASE + 3]? = none := List.getElem?_eq_none hlen
      cases hx0 : m.contents[a - RAM_BASE]? <;>
        cases hx1 : m.contents[a - RAM_BASE + 1]? <;>
          cases hx2 : m.contents[a - RAM_BASE + 2]? <;> rw [h3]
    · have h32 : MemoryBus.store m a 32 v = MemoryBus.store32 m a v := by
        simp only [MemoryBus.store, if_pos ha]
      rw [h32]
      simp only [MemoryBus.store32]
      rw [if_neg (by omega)]
  · intro m a ha hb
    have hsz : m.size = m.contents.length := rfl
    have h8 : MemoryBus.load m a 8 = MemoryBus.load8 m a := by
      simp only [MemoryBus.load, if_pos ha]
    rw [h8]
    simp only [MemoryBus.load8]
    rw [List.getElem?_eq_none (by omega)]
  · intro e v
    refine ⟨by cases e; decide, ?_⟩
    have hst : MemoryBus.store ⟨[0, 0, 0, 0]⟩ (0x80 + 2) 32 v = .panicked := by
      have h32 : MemoryBus.store (⟨[0, 0, 0, 0]⟩ : Memory) (0x80 + 2) 32 v =
          MemoryBus.store32 ⟨[0, 0, 0, 0]⟩ (0x80 + 2) v := by
        simp only [MemoryBus.store, if_pos (by decide : RAM_BASE ≤ 0x80 + 2)]
      rw [h32]
      simp only [MemoryBus.store32]
      rw [if_neg (by decide)]
    rw [hst]
    exact fun hcon => Outcome.noConfusion hcon

/-- Witness for the general out-of-bounds conjuncts of C3 at a concrete
memory and address. -/
theorem out_of_bounds_panics_witness :
    (MemoryBus.load ⟨[1, 2, 3, 4]⟩ 0x83 32 = .panicked ∧
     MemoryBus.store ⟨[1, 2, 3, 4]⟩ 0x83 32 9 = .panicked) ∧
    MemoryBus.load ⟨[1, 2, 3, 4]⟩ 0x84 8 = .panicked :=
  ⟨out_of_bounds_panics.1 ⟨[1, 2, 3, 4]⟩ 0x83 9 (by decide) (by decide),
   out_of_bounds_panics.2.1 ⟨[1, 2, 3, 4]⟩ 0x84 (by decide) (by decide)⟩

theorem asU32_lt (x : Int) : asU32 x < 2 ^ 32 := by
  unfold asU32
  have h1 : 0 ≤ x % (2 ^ 32 : Int) := Int.emod_nonneg x (by norm_num)
  have h2 : x % (2 ^ 32 : Int) < 2 ^ 32 := Int.emod_lt_of_pos x (by norm_num)
  omega

theorem itype_imm_lt (raw : Nat) : itype_imm raw < 2 ^ 32 := asU32_lt _

theorem getD_replicate_zero (n j : Nat) : (List.replicate n 0).getD j 0 = 0 := by
  induction n generalizing j with
  | zero => simp
  | succ k ih =>
    cases j with
    | zero => simp [List.replicate_succ]
    | succ j2 => simp [List.replicate_succ, ih j2]

theorem getReg_replicate_zero (pc j : Nat) : getReg ⟨List.replicate 32 0, pc⟩ j = 0 :=
  getD_replicate_zero 32 j

/-- C5: words with opcode `0x03` or `0x13` decode with the I-type immediate
equal to bits [31:20] sign-extended to 32 bits; words with opcode `0x23`
decode with the S-type immediate equal to the sign-extension of bits [31:25]
shifted into positions [11:5], OR'd with bits [11:7] in positions [4:0]. -/
theorem imm_fields_decoded (raw : Nat) :
    (raw &&& 0x7f = 0x03 ∨ raw &&& 0x7f = 0x13 →
      ∃ i, Instruction.tryFrom raw = .ok (.I i) ∧ i.imm = specItypeImm raw) ∧
    (raw &&& 0x7f = 0x23 →
      ∃ s, Instruction.tryFrom raw = .ok (.S s) ∧ s.imm = specStypeImm raw) := by
  constructor
  · intro hop
    have hdec : Instruction.tryFrom raw = .ok (.I
        { opcode := raw &&& 0x7f
          rd := decode_destination_register raw
          rs1 := (decode_source_registers raw).1
          imm := itype_imm raw
          funct3 := (decode_functs raw).1 }) := by
      simp only [Instruction.tryFrom]
      rw [if_pos hop]
    exact ⟨_, hdec, itype_imm_eq raw⟩
  · intro hop
    have hdec : Instruction.tryFrom raw = .ok (.S
        { opcode := raw &&& 0x7f
          rs1 := (decode_source_registers raw).1
          rs2 := (decode_source_registers raw).2
          imm := stype_imm raw
          funct3 := (decode_functs raw).1 }) := by
      simp only [Instruction.tryFrom]
      rw [if_neg (by rw [hop]; decide), if_pos hop]
    exact ⟨_, hdec, stype_imm_eq raw⟩

/-- Witness for C5: `addi x1, x0, 1` (`0x00100093`) and `sw x1, 4(x0)`
(`0x00102223`). -/
theorem imm_fields_decoded_witness :
    (∃ i, Instruction.tryFrom 0x00100093 = .ok (.I i) ∧
      i.imm = specItypeImm 0x00100093) ∧
    (∃ s, Instruction.tryFrom 0x00102223 = .ok (.S s) ∧
      s.imm = specStypeImm 0x00102223) :=
  ⟨(imm_fields_decoded 0x00100093).1 (Or.inr (by decide)),
   (imm_fields_decoded 0x00102223).2 (by decide)⟩

/-- C6: decoding a word with opcode `0x13` and funct3 `0x0` (`addi`) and
executing it against an all-zero register file sets `rd` to the sign-extended
immediate (in range of 32 bits), leaves every other register zero, and leaves
the memory and the PC unchanged. -/
theorem addi_zero_regfile (raw pc : Nat) (m : Memory)
    (hop : raw &&& 0x7f = 0x13) (hf3 : (raw >>> 12) &&& 0x7 = 0) :
    ∃ i, Instruction.tryFrom raw = .ok (.I i) ∧
      Cpu.execute ⟨List.replicate 32 0, pc⟩ (.I i) m =
        .ok (⟨(List.replicate 32 0).set i.rd (specItypeImm raw), pc⟩, m) ∧
      specItypeImm raw < 2 ^ 32 ∧
      (∀ j, j ≠ i.rd →
        getReg ⟨(List.replicate 32 0).set i.rd (specItypeImm raw), pc⟩ j = 0) := by
  have himm : itype_imm raw < 2 ^ 32 := itype_imm_lt raw
  have hdec : Instruction.tryFrom raw = .ok (.I
      { opcode := raw &&& 0x7f
        rd := decode_destination_register raw
        rs1 := (decode_source_registers raw).1
        imm := itype_imm raw
        funct3 := (decode_functs raw).1 }) := by
    simp only [Instruction.tryFrom]
    rw [if_pos (Or.inr hop)]
  refine ⟨_, hdec, ?_, itype_imm_eq raw ▸ himm, ?_⟩
  · simp only [Cpu.execute]
    rw [if_neg (by rw [hop]; decide), if_pos hop]
    have hfunct : (decode_functs raw).1 = 0 := hf3
    rw [if_pos hfunct]
    rw [getReg_replicate_zero, Nat.zero_add, Nat.mod_eq_of_lt himm, itype_imm_eq raw]
    rfl
  · intro j hj
    have hne : decode_destination_register raw ≠ j := fun h => hj h.symm
    show ((List.replicate 32 0).set (decode_destination_register raw)
        (specItypeImm raw)).getD j 0 = 0
    rw [List.getD_eq_getElem?_getD, List.getElem?_set_ne hne,
      ← List.getD_eq_getElem?_getD]
    exact getD_replicate_zero 32 j

/-- Witness for C6: `addi x1, x0, 1` executed from the all-zero register
file. -/
theorem addi_zero_regfile_witness :
    ∃ i, Instruction.tryFrom 0x00100093 = .ok (.I i) ∧
      Cpu.execute ⟨List.replicate 32 0, 0x84⟩ (.I i) ⟨[0]⟩ =
        .ok (⟨(List.replicate 32 0).set i.rd (specItypeImm 0x00100093), 0x84⟩, ⟨[0]⟩) ∧
      specItypeImm 0x00100093 < 2 ^ 32 ∧
      (∀ j, j ≠ i.rd →
        getReg ⟨(List.replicate 32 0).set i.rd (specItypeImm 0x00100093), 0x84⟩ j = 0) :=
  addi_zero_regfile 0x00100093 0x84 ⟨[0]⟩ (by decide) (by decide)

/-- C7: register 0 always reads as zero at the start of every cycle: a write
of any value `v` to register 0 is invisible to the next `advance` (the cycle
behaves exactly as if register 0 still held 0), and the register file used by
the cycle reads 0 at index 0. -/
theorem x0_reads_zero :
    (∀ c m v, Cpu.advance (setReg c 0 v) m = Cpu.advance c m) ∧
    (∀ c, getReg (setReg c 0 0) 0 = 0) := by
  constructor
  · intro c m v
    simp only [Cpu.advance, setReg_setReg]
  · intro c
    exact getD_set_zero c.registers

/-- C8: a successful `advance` leaves the PC at the old PC plus four (the
increment happens before execution and is modulo `2 ^ 32`; with the
configured 4 KiB memory it never wraps), and no successful execution of any
instruction modifies the PC. -/
theorem advance_increments_pc :
    (∀ c m c2 m2, Cpu.advance c m = .ok (c2, m2) →
      c2.pc = (c.pc + 4) % 2 ^ 32 ∧ (m.size ≤ MEMORY_SIZE → c2.pc = c.pc + 4)) ∧
    (∀ c instr m c2 m2, Cpu.execute c instr m = .ok (c2, m2) → c2.pc = c.pc) := by
  constructor
  · intro c m c2 m2 h
    have hinv := advance_ok_inv c m c2 m2 h
    refine ⟨hinv.2.2, fun hsz => ?_⟩
    rw [hinv.2.2]
    have hms : MEMORY_SIZE = 4096 := by decide
    have h1 := hinv.1
    have h2 := hinv.2.1
    have hram : RAM_BASE = 0x80 := rfl
    apply Nat.mod_eq_of_lt
    omega
  · exact fun c instr m c2 m2 h => execute_ok_pc c instr m c2 m2 h

/-- Witness for C8: one `advance` over `addi x1, x0, 1` placed at the reset
vector moves the PC from `0x80` to `0x84`. -/
theorem advance_increments_pc_witness :
    ((⟨((List.replicate 32 0).set 0 0).set 1 1, 0x84⟩ : Cpu).pc = (0x80 + 4) % 2 ^ 32) ∧
    ((⟨((List.replicate 32 0).set 0 0).set 1 1, 0x84⟩ : Cpu).pc = 0x80 + 4) ∧
    ((⟨(List.replicate 32 0).set 2 9, 0x90⟩ : Cpu).pc = (⟨List.replicate 32 0, 0x90⟩ : Cpu).pc) := by
  have h := advance_increments_pc.1 ⟨List.replicate 32 0, 0x80⟩ ⟨[0x93, 0x00, 0x10, 0x00]⟩
    ⟨((List.replicate 32 0).set 0 0).set 1 1, 0x84⟩ ⟨[0x93, 0x00, 0x10, 0x00]⟩ (by decide)
  have h2 := advance_increments_pc.2 ⟨List.replicate 32 0, 0x90⟩
    (.I { opcode := 0x13, rd := 2, rs1 := 0, imm := 9, funct3 := 0 }) ⟨[0]⟩
    ⟨(List.replicate 32 0).set 2 9, 0x90⟩ ⟨[0]⟩ (by decide)
  exact ⟨h.1, h.2 (by decide), h2⟩

theorem resetFuel_succ (n : Nat) (c : Cpu) (m : Memory) :
    Cpu.resetFuel (n + 1) c m =
      if c.pc < m.size % 2 ^ 32 then
        match Cpu.advance c m with
        | .ok (c2, m2) => Cpu.resetFuel n c2 m2
        | .err e => .err e
        | .panicked => .panicked
      else .ok c m := rfl

/-- The driver loop runs out of neither fuel nor time: once the fuel exceeds
the number of 4-byte steps left before the 32-bit PC would wrap (plus two),
the loop has returned. -/
theorem resetFuel_no_fuel (n : Nat) :
    ∀ c m, 2 ^ 32 ≤ c.pc + 4 * n → Cpu.resetFuel (n + 2) c m ≠ .fuel := by
  induction n with
  | zero =>
    intro c m hpc
    have hlt : m.size % 2 ^ 32 < 2 ^ 32 := Nat.mod_lt _ (by norm_num)
    rw [show (0 + 2 : Nat) = 1 + 1 from rfl, resetFuel_succ]
    rw [if_neg (by omega)]
    exact fun h => ResetOutcome.noConfusion h
  | succ n ih =>
    intro c m hpc
    rw [show (n + 1 + 2 : Nat) = (n + 2) + 1 from rfl, resetFuel_succ]
    by_cases hsz : c.pc < m.size % 2 ^ 32
    · rw [if_pos hsz]
      have hpclt : c.pc < 2 ^ 32 :=
        lt_of_lt_of_le hsz (le_of_lt (Nat.mod_lt _ (by norm_num)))
      cases hadv : Cpu.advance c m with
      | ok cm =>
        cases cm with
        | mk c2 m2 =>
          have hinv := advance_ok_inv c m c2 m2 hadv
          by_cases hwrap : c.pc + 4 < 2 ^ 32
          · have hpc2 : c2.pc = c.pc + 4 := by
              rw [hinv.2.2]
              exact Nat.mod_eq_of_lt hwrap
            exact ih c2 m2 (by omega)
          · have hpc2 : c2.pc < RAM_BASE := by
              rw [hinv.2.2]
              show (c.pc + 4) % 2 ^ 32 < 0x80
              have hmod : (c.pc + 4) % 2 ^ 32 = c.pc + 4 - 2 ^ 32 := by omega
              omega
            show Cpu.resetFuel (n + 2) c2 m2 ≠ ResetOutcome.fuel
            rw [show (n + 2 : Nat) = (n + 1) + 1 from rfl, resetFuel_succ]
            by_cases hsz2 : c2.pc < m2.size % 2 ^ 32
            · rw [if_pos hsz2, advance_panic_low c2 m2 hpc2]
              exact fun h => ResetOutcome.noConfusion h
            · rw [if_neg hsz2]
              exact fun h => ResetOutcome.noConfusion h
      | err e =>
        exact fun h => ResetOutcome.noConfusion h
      | panicked =>
        exact fun h => ResetOutcome.noConfusion h
    · rw [if_neg hsz]
      exact fun h => ResetOutcome.noConfusion h

/-- C9: the `reset` driver loop terminates from every starting state — a
fuel of `2 ^ 30 + 2` steps is never exhausted (each successful `advance` adds
4 to the PC, so the guard `pc < size as u32` can fail or a fault must occur
before that many steps).  Moreover the loop returns success immediately once
the PC is not below the memory size, and propagates the first error an
`advance` produces without treating opcode zero specially. -/
theorem reset_terminates :
    (∀ c m, Cpu.resetFuel (2 ^ 30 + 2) c m ≠ .fuel) ∧
    (∀ c m, m.size % 2 ^ 32 ≤ c.pc → Cpu.resetFuel (2 ^ 30 + 2) c m = .ok c m) ∧
    (∀ c m e, c.pc < m.size % 2 ^ 32 → Cpu.advance c m = .err e →
      Cpu.resetFuel (2 ^ 30 + 2) c m = .err e) := by
  refine ⟨?_, ?_, ?_⟩
  · intro c m
    exact resetFuel_no_fuel (2 ^ 30) c m (by omega)
  · intro c m h
    rw [show (2 ^ 30 + 2 : Nat) = (2 ^ 30 + 1) + 1 from rfl, resetFuel_succ,
      if_neg (by omega)]
  · intro c m e hlt hadv
    rw [show (2 ^ 30 + 2 : Nat) = (2 ^ 30 + 1) + 1 from rfl, resetFuel_succ,
      if_pos hlt, hadv]

set_option maxRecDepth 8192 in
/-- Witness for C9: from a PC at or past the memory size the loop returns at
once; a zero word under the PC makes the loop return the opcode-zero decode
error. -/
theorem reset_terminates_witness :
    Cpu.resetFuel (2 ^ 30 + 2) ⟨List.replicate 32 0, 0x80⟩ ⟨[]⟩ ≠ .fuel ∧
    Cpu.resetFuel (2 ^ 30 + 2) ⟨List.replicate 32 0, 0x80⟩ ⟨[]⟩ =
      .ok ⟨List.replicate 32 0, 0x80⟩ ⟨[]⟩ ∧
    Cpu.resetFuel (2 ^ 30 + 2) ⟨List.replicate 32 0, 0x80⟩ ⟨List.replicate 0x84 0⟩ =
      .err (.Decode .OpcodeZero) :=
  ⟨reset_terminates.1 _ _,
   reset_terminates.2.1 ⟨List.replicate 32 0, 0x80⟩ ⟨[]⟩ (by decide),
   reset_terminates.2.2 ⟨List.replicate 32 0, 0x80⟩ ⟨List.replicate 0x84 0⟩ _
     (by decide) (by decide)⟩

/-- C10: a successful 32-bit store modifies exactly the four bytes at
`a - RAM_BASE .. a - RAM_BASE + 3` (set to the little-endian decomposition of
the value) and no other byte, preserving the array length; and a successful
execution of a load-format instruction leaves the memory and the PC
unchanged (the `load` path is read-only). -/
theorem store_writes_exactly_four_bytes :
    (∀ m a v m2, RAM_BASE ≤ a → MemoryBus.store m a 32 v = .ok m2 →
      m2.size = m.size ∧
      (∀ j, j < a - RAM_BASE ∨ a - RAM_BASE + 3 < j →
        m2.contents[j]? = m.contents[j]?) ∧
      m2.contents[a - RAM_BASE]? = some (v % 2 ^ 8) ∧
      m2.contents[a - RAM_BASE + 1]? = some ((v >>> 8) % 2 ^ 8) ∧
      m2.contents[a - RAM_BASE + 2]? = some ((v >>> 16) % 2 ^ 8) ∧
      m2.contents[a - RAM_BASE + 3]? = some ((v >>> 24) % 2 ^ 8)) ∧
    (∀ c i m c2 m2, i.opcode = 0x03 → Cpu.execute c (.I i) m = .ok (c2, m2) →
      m2 = m ∧ c2.pc = c.pc) := by
  constructor
  · intro m a v m2 ha hst
    have hff : (0xff : Nat) = 2 ^ 8 - 1 := by norm_num
    have h32 : MemoryBus.store m a 32 v = MemoryBus.store32 m a v := by
      simp only [MemoryBus.store, if_pos ha]
    rw [h32] at hst
    by_cases hlen : a - RAM_BASE + 3 < m.contents.length
    · rw [store32_ok m a v hlen] at hst
      cases hst
      refine ⟨by simp [Memory.size], ?_, ?_, ?_, ?_, ?_⟩
      · intro j hj
        rw [List.getElem?_set_ne (by omega), List.getElem?_set_ne (by omega),
          List.getElem?_set_ne (by omega), List.getElem?_set_ne (by omega)]
      · rw [List.getElem?_set_ne (by omega), List.getElem?_set_ne (by omega),
          List.getElem?_set_ne (by omega),
          List.getElem?_set_self (by omega), hff, Nat.and_pow_two_sub_one_eq_mod]
      · rw [List.getElem?_set_ne (by omega), List.getElem?_set_ne (by omega),
          List.getElem?_set_self (by simp [List.length_set]; omega), hff,
          Nat.and_pow_two_sub_one_eq_mod]
      · rw [List.getElem?_set_ne (by omega),
          List.getElem?_set_self (by simp [List.length_set]; omega), hff,
          Nat.and_pow_two_sub_one_eq_mod]
      · rw [List.getElem?_set_self (by simp [List.length_set]; omega), hff,
          Nat.and_pow_two_sub_one_eq_mod]
    · simp only [MemoryBus.store32] at hst
      rw [if_neg hlen] at hst
      cases hst
  · intro c i m c2 m2 hop h
    exact execute_load_pure c i m c2 m2 hop h

/-- Witness for C10: storing `0x12345678` at address `0x81` in a six-byte
memory, and executing `lb x2, 0x80(x0)` over a one-byte memory. -/
theorem store_writes_exactly_four_bytes_witness :
    ((⟨[1, 0x78, 0x56, 0x34, 0x12, 6]⟩ : Memory).size = (⟨[1, 2, 3, 4, 5, 6]⟩ : Memory).size ∧
     (⟨[1, 0x78, 0x56, 0x34, 0x12, 6]⟩ : Memory).contents[0]? =
       (⟨[1, 2, 3, 4, 5, 6]⟩ : Memory).contents[0]? ∧
     (⟨[1, 0x78, 0x56, 0x34, 0x12, 6]⟩ : Memory).contents[5]? =
       (⟨[1, 2, 3, 4, 5, 6]⟩ : Memory).contents[5]? ∧
     (⟨[1, 0x78, 0x56, 0x34, 0x12, 6]⟩ : Memory).contents[1]? =
       some (0x12345678 % 2 ^ 8)) ∧
    ((⟨[9]⟩ : Memory) = (⟨[9]⟩ : Memory) ∧
     (⟨(List.replicate 32 0).set 2 9, 0x90⟩ : Cpu).pc =
       (⟨List.replicate 32 0, 0x90⟩ : Cpu).pc) := by
  have h := store_writes_exactly_four_bytes.1 ⟨[1, 2, 3, 4, 5, 6]⟩ 0x81 0x12345678
    ⟨[1, 0x78, 0x56, 0x34, 0x12, 6]⟩ (by decide) (by decide)
  have h2 := store_writes_exactly_four_bytes.2 ⟨List.replicate 32 0, 0x90⟩
    { opcode := 0x03, rd := 2, rs1 := 0, imm := 0x80, funct3 := 0 } ⟨[9]⟩
    ⟨(List.replicate 32 0).set 2 9, 0x90⟩ ⟨[9]⟩ rfl (by decide)
  exact ⟨⟨h.1, h.2.1 0 (Or.inl (by decide)), h.2.1 5 (Or.inr (by decide)), h.2.2.1⟩, h2⟩

end RvEmu
